import Mathlib

/-
Verification of the execution tracer and conversation/memory core of
MaxParisotto/coding-wizard (src/langchain/app.py and src/langchain/agent.py).

The Python code is shallowly embedded:
  * `Run` models langchain's run record as the tracer uses it: an opaque
    string id, a name, a run_type, an optional parent id, an optional
    `status` attribute (`hasattr(run, 'status')` is modelled as `isSome`),
    and an optional end_time (Python `None` = `none`).
  * `DiGraph` models the networkx directed graph as used by the tracer:
    an insertion-ordered node list with per-node attribute dictionaries
    (each attribute key optional = absent), and an insertion-ordered edge
    list.  `add_node` on an existing node updates the given keys;
    `add_edge` implicitly creates missing endpoint nodes with no
    attributes, exactly as networkx does.  Reading `G.nodes[n]` for a
    missing `n`, or a missing attribute key, raises KeyError; fallible
    operations therefore return `Except String`.
  * The pipeline (`chain.invoke` / `agent_with_chat_history.invoke`) is an
    external black box per the spec; it is passed in as a function that
    either returns an updated message list or raises a `PyExc`
    (an exception with a class name and a message).  The tracer callbacks
    the pipeline would drive during a turn are verified directly against
    the `GraphTracer` operations; `Conversation.chat` is modelled with the
    fresh per-turn tracer left untouched by the abstract pipeline.
-/

/-- Message model of langchain's `BaseMessage` as used by app.py:
a `type` tag (`"human"` for user messages) and text content. -/
structure BaseMessage where
  type : String
  content : String
deriving DecidableEq

/-- `HumanMessage(content=...)` constructor. -/
def HumanMessage (content : String) : BaseMessage :=
  ⟨"human", content⟩

/-- app.py `format_message`: `"You: <text>"` for human messages,
`"Assistant: <text>"` otherwise. -/
def format_message (msg : BaseMessage) : String :=
  if msg.type = "human" then "You: " ++ msg.content
  else "Assistant: " ++ msg.content

/-- One run record as the tracer consumes it.  `status = none` models a
run object with no `status` attribute; `end_time = none` models an unset
(Python `None`) end time. -/
structure Run where
  id : String
  name : String
  run_type : String
  parent_run_id : Option String
  status : Option String
  end_time : Option Int
deriving DecidableEq

/-- Attribute dictionary of one graph node; `none` means the key is
absent.  The node's `end_time` key, when present, holds a possibly-`None`
Python value, hence the nested option. -/
structure NodeAttrs where
  label : Option String := none
  type : Option String := none
  status : Option String := none
  end_time : Option (Option Int) := none
deriving DecidableEq

/-- networkx `DiGraph` as the tracer uses it: insertion-ordered nodes with
attribute dictionaries, insertion-ordered edges. -/
structure DiGraph where
  nodes : List (String × NodeAttrs)
  edges : List (String × String)
deriving DecidableEq

/-- Membership test `n in G` on node ids. -/
def DiGraph.hasNode (g : DiGraph) (id : String) : Bool :=
  g.nodes.any (fun p => p.1 == id)

/-- `G.nodes[id]` as a lookup that can miss. -/
def DiGraph.getAttrs (g : DiGraph) (id : String) : Option NodeAttrs :=
  (g.nodes.find? (fun p => p.1 == id)).map Prod.snd

/-- networkx node insertion/update: if the node exists, rewrite its
attribute dictionary with `f`; otherwise append a fresh node whose
attributes are `f` applied to the empty dictionary. -/
def DiGraph.setNode (g : DiGraph) (id : String) (f : NodeAttrs → NodeAttrs) : DiGraph :=
  if g.hasNode id then
    { g with nodes := g.nodes.map (fun p => if p.1 == id then (p.1, f p.2) else p) }
  else
    { g with nodes := g.nodes ++ [(id, f {})] }

/-- networkx `add_edge u v`: implicitly creates missing endpoint nodes
with empty attribute dictionaries, then records the edge. -/
def DiGraph.add_edge (g : DiGraph) (u v : String) : DiGraph :=
  let g1 := g.setNode u (fun a => a)
  let g2 := g1.setNode v (fun a => a)
  if (u, v) ∈ g2.edges then g2 else { g2 with edges := g2.edges ++ [(u, v)] }

/-- app.py `GraphTracer`: the networkx graph plus the in-memory run log. -/
structure GraphTracer where
  graph : DiGraph
  runs : List Run
deriving DecidableEq

/-- A freshly constructed tracer: empty graph, empty run log. -/
def GraphTracer.init : GraphTracer :=
  ⟨⟨[], []⟩, []⟩

/-- app.py `GraphTracer.load_run`: linear scan of the run log, first match
wins; raises `KeyError(f"Run {run_id} not found")` when absent. -/
def GraphTracer.load_run (t : GraphTracer) (run_id : String) : Except String Run :=
  match t.runs.find? (fun r => r.id == run_id) with
  | some r => Except.ok r
  | none => Except.error ("Run " ++ run_id ++ " not found")

/-- app.py `GraphTracer.on_run_create`: append the run to the log, add the
node with `label`/`type` attributes, and when `parent_run_id` is set add
the edge `(parent_run_id, run.id)` (networkx creating the parent node
implicitly if it does not exist). -/
def GraphTracer.on_run_create (t : GraphTracer) (run : Run) : GraphTracer :=
  let g1 := t.graph.setNode run.id
    (fun a => { a with label := some run.name, type := some run.run_type })
  let g2 := match run.parent_run_id with
    | some p => g1.add_edge p run.id
    | none => g1
  { graph := g2, runs := t.runs ++ [run] }

/-- app.py `GraphTracer.on_run_update`: when the run has a `status`
attribute, write it into `self.graph.nodes[run.id]`; that subscript raises
KeyError when the node does not exist.  Without a `status` attribute the
method does nothing. -/
def GraphTracer.on_run_update (t : GraphTracer) (run : Run) : Except String GraphTracer :=
  match run.status with
  | none => Except.ok t
  | some st =>
    if t.graph.hasNode run.id then
      let g := t.graph.setNode run.id (fun a => { a with status := some st })
      Except.ok { t with graph := g }
    else Except.error ("KeyError: " ++ run.id)

/-- app.py `GraphTracer.on_run_end`: write the run's final status (when
the attribute exists) and its `end_time` value into the node's attribute
dictionary; the `self.graph.nodes[run.id]` subscript raises KeyError for
an unknown node. -/
def GraphTracer.on_run_end (t : GraphTracer) (run : Run) : Except String GraphTracer :=
  match run.status with
  | some st =>
    if t.graph.hasNode run.id then
      let g := t.graph.setNode run.id
        (fun a => { a with status := some st, end_time := some run.end_time })
      Except.ok { t with graph := g }
    else Except.error ("KeyError: " ++ run.id)
  | none =>
    if t.graph.hasNode run.id then
      let g := t.graph.setNode run.id (fun a => { a with end_time := some run.end_time })
      Except.ok { t with graph := g }
    else Except.error ("KeyError: " ++ run.id)

/-- The loop body of app.py `GraphTracer.end_trace`: for each logged run,
if its own `end_time` is unset (`not run.end_time`), call `on_run_end`
on it. -/
def endTraceAux (t : GraphTracer) : List Run → Except String GraphTracer
  | [] => Except.ok t
  | r :: rs =>
    if r.end_time = none then
      match t.on_run_end r with
      | Except.error e => Except.error e
      | Except.ok t2 => endTraceAux t2 rs
    else endTraceAux t rs

/-- app.py `GraphTracer.end_trace`: sweep the run log. -/
def GraphTracer.end_trace (t : GraphTracer) : Except String GraphTracer :=
  endTraceAux t t.runs

/-- One exported node: `{"id": ..., "label": ..., "type": ...}`. -/
structure ExportNode where
  id : String
  label : String
  type : String
deriving DecidableEq

/-- One exported edge: `{"from": u, "to": v}`. -/
structure ExportEdge where
  «from» : String
  «to» : String
deriving DecidableEq

/-- Reading one node's export record: `self.graph.nodes[node]["label"]`
and `["type"]` raise KeyError when the attribute key is absent (left to
right, as Python evaluates the dict literal). -/
def exportNodeEntry (p : String × NodeAttrs) : Except String ExportNode :=
  match p.2.label with
  | none => Except.error "KeyError: label"
  | some l =>
    match p.2.type with
    | none => Except.error "KeyError: type"
    | some ty => Except.ok ⟨p.1, l, ty⟩

/-- The node list comprehension of `get_graph_data`, first KeyError wins. -/
def mapExportNodes : List (String × NodeAttrs) → Except String (List ExportNode)
  | [] => Except.ok []
  | p :: t =>
    match exportNodeEntry p with
    | Except.error e => Except.error e
    | Except.ok n =>
      match mapExportNodes t with
      | Except.error e => Except.error e
      | Except.ok ns => Except.ok (n :: ns)

/-- app.py `GraphTracer.get_graph_data`: project every node to
`{id, label, type}` in insertion order and every edge to `{from, to}`. -/
def GraphTracer.get_graph_data (t : GraphTracer) :
    Except String (List ExportNode × List ExportEdge) :=
  match mapExportNodes t.graph.nodes with
  | Except.error e => Except.error e
  | Except.ok ns => Except.ok (ns, t.graph.edges.map (fun e => ⟨e.1, e.2⟩))

/-- A lifecycle event that is not a create: an `on_run_update` or an
`on_run_end` call. -/
inductive UEvent where
  | upd (r : Run)
  | fin (r : Run)
deriving DecidableEq

/-- The run id an update/end event refers to. -/
def UEvent.runId : UEvent → String
  | .upd r => r.id
  | .fin r => r.id

/-- Dispatch one update/end event to the tracer. -/
def GraphTracer.applyUEvent (t : GraphTracer) : UEvent → Except String GraphTracer
  | .upd r => t.on_run_update r
  | .fin r => t.on_run_end r

/-- Dispatch a sequence of update/end events, stopping at the first
raised KeyError. -/
def GraphTracer.applyUEvents (t : GraphTracer) : List UEvent → Except String GraphTracer
  | [] => Except.ok t
  | e :: es =>
    match t.applyUEvent e with
    | Except.error ex => Except.error ex
    | Except.ok t2 => t2.applyUEvents es

/-- Whether an `Except` computation succeeded (no exception raised). -/
def exceptIsOk {ε α : Type} : Except ε α → Bool
  | Except.ok _ => true
  | Except.error _ => false

/-- Export of the tracer a fallible event sequence produced (a raised
exception propagates). -/
def exportOfE : Except String GraphTracer → Except String (List ExportNode × List ExportEdge)
  | Except.ok t => t.get_graph_data
  | Except.error e => Except.error e

/-- The projection of one graph node that `get_graph_data` reads:
its id and its `label` and `type` attribute values. -/
def nodeProj (p : String × NodeAttrs) : String × Option String × Option String :=
  (p.1, p.2.label, p.2.type)

/-- A Python exception as agent.py handles it: its class name and its
`str(e)` message. -/
structure PyExc where
  cls : String
  msg : String
deriving DecidableEq

/-- The exception classes agent.py `process_message` catches:
`except (ValueError, KeyError, AgentError)`. -/
def caught_exception_classes : List String :=
  ["ValueError", "KeyError", "AgentError"]

/-- The structured result agent.py `process_message` returns. -/
structure AgentResult where
  response : Option String
  error : Option String
deriving DecidableEq

/-- agent.py `process_message`: invoke the pipeline (here: its
already-determined outcome); on success wrap the output, on an exception
of one of the three caught classes return `{response: None, error:
str(e)}`, and let any other exception propagate. -/
def agent_process_message (invocation : Except PyExc String) : Except PyExc AgentResult :=
  match invocation with
  | Except.ok out => Except.ok ⟨some out, none⟩
  | Except.error e =>
    if e.cls ∈ caught_exception_classes then Except.ok ⟨none, some e.msg⟩
    else Except.error e

/-- The state of app.py's `Conversation`: the message history and the most
recently rendered transcript. -/
structure ConvState where
  messages : List BaseMessage
  last_response : String
deriving DecidableEq

/-- The graph value the UI callback hands to the JSON widget: either the
bare `{}` returned on blank input, or a real export. -/
inductive GraphJson where
  | emptyDict : GraphJson
  | data : List ExportNode → List ExportEdge → GraphJson
deriving DecidableEq

/-- The transcript rendering in `Conversation.chat`:
`"\n\n".join(format_message(msg) for msg in self.messages)`. -/
def renderTranscript (msgs : List BaseMessage) : String :=
  String.intercalate "\n\n" (msgs.map format_message)

/-- app.py `Conversation.chat`: append the user message, invoke the
black-box pipeline on the full history, overwrite the history with the
pipeline's returned messages, render the transcript, and return it with
the turn's graph export.  The method has no `try/except`: a pipeline
exception propagates (after the `finally: end_trace` of the trace
bracket), with the appended user message already in the history.  The
fresh per-turn tracer is untouched by the abstract pipeline, so its
export is empty. -/
def Conversation.chat (st : ConvState) (user_input : String)
    (pipeline : List BaseMessage → Except PyExc (List BaseMessage)) :
    ConvState × Except PyExc (String × GraphJson) :=
  match pipeline (st.messages ++ [HumanMessage user_input]) with
  | Except.error e =>
    ({ st with messages := st.messages ++ [HumanMessage user_input] }, Except.error e)
  | Except.ok newMsgs =>
    (⟨newMsgs, renderTranscript newMsgs⟩,
      Except.ok (renderTranscript newMsgs, GraphJson.data [] []))

/-- The transcript format as the specification words it: each user
(human) message rendered `"You: <text>"`, every other message
`"Assistant: <text>"`, in history order, paragraphs joined by one blank
line. -/
def spec_transcript (msgs : List BaseMessage) : String :=
  String.intercalate "\n\n" (msgs.map (fun m =>
    if m.type = "human" then "You: " ++ m.content else "Assistant: " ++ m.content))

/-- The whitespace characters Python's `str.strip()` removes (ASCII). -/
def isPySpace (c : Char) : Bool :=
  c == ' ' || c == '\t' || c == '\n' || c == '\r' || c == '\x0B' || c == '\x0C'

/-- Python `user_text.strip()`. -/
def pyStrip (s : String) : String :=
  String.mk (((s.toList.dropWhile isPySpace).reverse.dropWhile isPySpace).reverse)

/-- The UI-facing state of app.py: the `Conversation` object plus the chat
history textbox's current value. -/
structure AppState where
  conv : ConvState
  chatbot_value : Option String
deriving DecidableEq

/-- app.py `process_message` (the Gradio callback): blank input returns
`(chatbot.value or "", {})` without touching the conversation; otherwise
the turn is delegated to `Conversation.chat`. -/
def app_process_message (st : AppState) (user_text : String)
    (pipeline : List BaseMessage → Except PyExc (List BaseMessage)) :
    AppState × Except PyExc (String × GraphJson) :=
  if pyStrip user_text = "" then
    (st, Except.ok (st.chatbot_value.getD "", GraphJson.emptyDict))
  else
    match Conversation.chat st.conv user_text pipeline with
    | (conv2, r) => ({ st with conv := conv2 }, r)

/-- agent.py's session-memory registry `memory_store`, with object
identity made explicit: `store` maps a session id to a reference (an
index), `heap` holds the message-history objects those references point
at.  `create_memory` storing `memory.chat_memory` in the dict is the
allocation of one heap cell. -/
structure MemoryStore where
  store : List (String × Nat)
  heap : List (List BaseMessage)
deriving DecidableEq

/-- agent.py `create_memory`: if the session id is not yet a key, allocate
a fresh history object and register it; return the registered object (its
reference, not a copy). -/
def create_memory (session_id : String) (s : MemoryStore) : Nat × MemoryStore :=
  match s.store.find? (fun p => p.1 == session_id) with
  | some p => (p.2, s)
  | none =>
    (s.heap.length, ⟨s.store ++ [(session_id, s.heap.length)], s.heap ++ [[]]⟩)

/-- Appending a message through a history reference (mutating the shared
object). -/
def appendRef (s : MemoryStore) (r : Nat) (m : BaseMessage) : MemoryStore :=
  ⟨s.store, s.heap.set r (s.heap.getD r [] ++ [m])⟩

/-- Reading the messages a history reference currently holds. -/
def readRef (s : MemoryStore) (r : Nat) : List BaseMessage :=
  s.heap.getD r []

/-- Well-formedness of the registry: every registered reference is a live
heap cell, and distinct session ids hold distinct references. -/
def MemoryStore.WF (s : MemoryStore) : Prop :=
  (∀ p ∈ s.store, p.2 < s.heap.length) ∧
  (∀ p ∈ s.store, ∀ q ∈ s.store, p.1 ≠ q.1 → p.2 ≠ q.2)

/-- Concrete fixture: a root run with no end time, still `running`. -/
def runA : Run := ⟨"a", "step", "chain", none, some "running", none⟩

/-- Concrete fixture: a child run whose parent `"a"` was never created. -/
def runB : Run := ⟨"b", "child", "tool", some "a", some "running", none⟩

/-- Concrete fixture: a run id unknown to the tracer, with a `status`
attribute. -/
def runX : Run := ⟨"x", "node", "llm", none, some "running", none⟩

/-- Concrete fixture: the same unknown run id, without a `status`
attribute. -/
def runXnoStatus : Run := ⟨"x", "node", "llm", none, none, none⟩

/-- Concrete fixture: an update for run `"a"` carrying a final status and
an end time. -/
def runAfin : Run := ⟨"a", "step", "chain", none, some "success", some 5⟩

/-- A tracer that observed exactly `on_run_create(runA)`. -/
def tracer1 : GraphTracer := GraphTracer.init.on_run_create runA

/-- The empty session registry. -/
def emptyStore : MemoryStore := ⟨[], []⟩

/-- A concrete user message. -/
def msgHi : BaseMessage := ⟨"human", "hi"⟩

/-- A concrete stub pipeline returning a fixed two-message history. -/
def pipelineEcho : List BaseMessage → Except PyExc (List BaseMessage) :=
  fun _ => Except.ok [⟨"human", "hi"⟩, ⟨"ai", "hello"⟩]

/-- A concrete UI state whose displayed transcript matches the
conversation's last rendered response. -/
def appState5 : AppState := ⟨⟨[⟨"human", "hi"⟩], "You: hi"⟩, some "You: hi"⟩

/-- Auxiliary: `List.getD` after `List.set` at the same, in-bounds index
reads back the written value. -/
theorem list_getD_set_self {α : Type} (l : List α) (i : Nat) (x d : α)
    (h : i < l.length) : (l.set i x).getD i d = x := by
  induction l generalizing i with
  | nil => simp at h
  | cons a t ih =>
    cases i with
    | zero => rfl
    | succ n => exact ih n (Nat.lt_of_succ_lt_succ h)

/-- Auxiliary: `List.set` at one index leaves `List.getD` at any other
index unchanged. -/
theorem list_getD_set_ne {α : Type} (l : List α) (i j : Nat) (x d : α)
    (h : i ≠ j) : (l.set i x).getD j d = l.getD j d := by
  induction l generalizing i j with
  | nil => rfl
  | cons a t ih =>
    cases i with
    | zero =>
      cases j with
      | zero => exact absurd rfl h
      | succ n => rfl
    | succ m =>
      cases j with
      | zero => rfl
      | succ n => exact ih m n (fun hmn => h (congrArg Nat.succ hmn))

/-- Auxiliary: `find?` skips over a prefix in which nothing matches. -/
theorem find?_append_of_none {α : Type} (p : α → Bool) (l1 l2 : List α)
    (h : l1.find? p = none) : (l1 ++ l2).find? p = l2.find? p := by
  induction l1 with
  | nil => rfl
  | cons b t ih =>
    by_cases hb : p b = true
    · rw [List.find?_cons_of_pos _ hb] at h
      exact absurd h (by simp)
    · rw [List.find?_cons_of_neg _ hb] at h
      rw [List.cons_append, List.find?_cons_of_neg _ hb, ih h]

/-- Auxiliary: appending one non-matching element does not change
`find?`. -/
theorem find?_append_singleton_of_neg {α : Type} (p : α → Bool) (l : List α)
    (a : α) (h : p a = false) : (l ++ [a]).find? p = l.find? p := by
  induction l with
  | nil => simp [List.find?, h]
  | cons b t ih =>
    by_cases hb : p b = true
    · rw [List.cons_append, List.find?_cons_of_pos _ hb, List.find?_cons_of_pos _ hb]
    · rw [List.cons_append, List.find?_cons_of_neg _ hb, List.find?_cons_of_neg _ hb, ih]

/-- C1: the claim that `end_trace` force-finalizes every unterminated run
with an end time, leaving no node in `running` status, fails on the code:
the sweep calls `on_run_end(run)` on a run whose own `end_time` is unset,
so the node's `end_time` attribute is set to the Python value `None` and
the run's still-`running` status is copied back into the node.  Evaluated
at the failing input (a single created, unterminated run `"a"`), the node
after `end_trace` still has `status = "running"` and an absent end time
(`end_time` key present with value `None`). -/
theorem c1_end_trace_no_finalization :
    Except.map (fun t : GraphTracer => t.graph.getAttrs "a") tracer1.end_trace
      = Except.ok (some ⟨some "step", some "chain", some "running", some none⟩) := by
  rfl

/-- C2: the claim that an edge is only ever added when the parent node
already exists fails on the code: `on_run_create` for run `"b"` with the
never-registered parent `"a"` makes networkx `add_edge` implicitly create
an attribute-less node `"a"` and record the edge `("a", "b")`; the
corrupted graph then makes `get_graph_data` raise KeyError on the missing
`label` attribute. -/
theorem c2_unknown_parent_dangling_edge :
    (GraphTracer.init.on_run_create runB).graph.edges = [("a", "b")]
    ∧ (GraphTracer.init.on_run_create runB).graph.getAttrs "a"
        = some ⟨none, none, none, none⟩
    ∧ (GraphTracer.init.on_run_create runB).get_graph_data
        = Except.error "KeyError: label" := by
  exact ⟨rfl, rfl, rfl⟩

/-- C4: the claim that `on_run_update` with an unknown run id is a
raise-free no-op fails on the code: when the run carries a `status`
attribute, the subscript `self.graph.nodes[run.id]` raises KeyError on
the empty graph.  Only a run without a `status` attribute makes the call
a true no-op. -/
theorem c4_update_unknown_id_raises :
    GraphTracer.init.on_run_update runX = Except.error "KeyError: x"
    ∧ GraphTracer.init.on_run_update runXnoStatus = Except.ok GraphTracer.init := by
  exact ⟨rfl, rfl⟩

/-- C3 counterexample: a pipeline exception whose class is not one of the
three caught ones (here `TypeError`) propagates out of
`agent.process_message` as a raw exception instead of being converted to
the structured `{response: None, error: <message>}` result the claim
requires. -/
theorem c3_uncaught_exception_propagates :
    agent_process_message (Except.error ⟨"TypeError", "boom"⟩)
        = Except.error ⟨"TypeError", "boom"⟩
    ∧ exceptIsOk (agent_process_message (Except.error ⟨"TypeError", "boom"⟩)) = false := by
  exact ⟨rfl, rfl⟩

/-- C3 (amended): pipeline exceptions of class `ValueError`, `KeyError`
or `AgentError` are caught by `agent.process_message` and returned as
`{response: None, error: str(e)}`; an exception of any other class
propagates unchanged.  `Conversation.chat` catches nothing: every
pipeline exception propagates to the caller, though the user message
appended at the start of the turn stays recorded in the history. -/
theorem c3_error_handling_amended :
    (∀ e : PyExc, e.cls ∈ caught_exception_classes →
      agent_process_message (Except.error e) = Except.ok ⟨none, some e.msg⟩)
    ∧ (∀ e : PyExc, e.cls ∉ caught_exception_classes →
      agent_process_message (Except.error e) = Except.error e)
    ∧ (∀ (st : ConvState) (input : String) (e : PyExc),
      Conversation.chat st input (fun _ => Except.error e)
        = ({ st with messages := st.messages ++ [HumanMessage input] }, Except.error e)) := by
  refine ⟨?_, ?_, ?_⟩
  · intro e he
    show (if e.cls ∈ caught_exception_classes then
        Except.ok (⟨none, some e.msg⟩ : AgentResult) else Except.error e)
      = Except.ok ⟨none, some e.msg⟩
    rw [if_pos he]
  · intro e he
    show (if e.cls ∈ caught_exception_classes then
        Except.ok (⟨none, some e.msg⟩ : AgentResult) else Except.error e)
      = Except.error e
    rw [if_neg he]
  · intro st input e
    rfl

/-- C3 witness: the amended theorem applied at concrete exceptions of a
caught class, an uncaught class, and a concrete failing chat turn. -/
theorem c3_error_handling_amended_witness :
    agent_process_message (Except.error ⟨"ValueError", "bad"⟩)
        = Except.ok ⟨none, some "bad"⟩
    ∧ agent_process_message (Except.error ⟨"RuntimeError", "bad"⟩)
        = Except.error ⟨"RuntimeError", "bad"⟩
    ∧ Conversation.chat ⟨[], ""⟩ "hi" (fun _ => Except.error ⟨"RuntimeError", "bad"⟩)
        = (⟨[HumanMessage "hi"], ""⟩, Except.error ⟨"RuntimeError", "bad"⟩) :=
  ⟨c3_error_handling_amended.1 ⟨"ValueError", "bad"⟩ (by decide),
   c3_error_handling_amended.2.1 ⟨"RuntimeError", "bad"⟩ (by decide),
   c3_error_handling_amended.2.2 ⟨[], ""⟩ "hi" ⟨"RuntimeError", "bad"⟩⟩

/-- C5: blank (empty or whitespace-only) input is an idempotent no-op of
the UI callback: the conversation state is untouched (no turn recorded)
and the previously displayed transcript is returned unchanged with the
bare `{}` graph value. -/
theorem c5_blank_input_noop (st : AppState) (input : String)
    (pipeline : List BaseMessage → Except PyExc (List BaseMessage))
    (h : pyStrip input = "")
    (hv : st.chatbot_value = some st.conv.last_response) :
    app_process_message st input pipeline
      = (st, Except.ok (st.conv.last_response, GraphJson.emptyDict)) := by
  unfold app_process_message
  rw [if_pos h, hv]
  rfl

/-- C5 witness: the no-op theorem applied at a concrete state and the
whitespace input `"   "`. -/
theorem c5_blank_input_noop_witness :
    app_process_message appState5 "   " pipelineEcho
      = (appState5, Except.ok ("You: hi", GraphJson.emptyDict)) :=
  c5_blank_input_noop appState5 "   " pipelineEcho (by decide) rfl

/-- C6: the rendered transcript is exactly the specified format — every
message in history order, `"You: <text>"` for human messages and
`"Assistant: <text>"` otherwise, joined with one blank line — both as the
standalone rendering function and as the transcript a successful `chat`
turn returns for the pipeline's post-turn history. -/
theorem c6_transcript_format :
    (∀ msgs : List BaseMessage, renderTranscript msgs = spec_transcript msgs)
    ∧ (∀ (st : ConvState) (input : String)
        (pipeline : List BaseMessage → Except PyExc (List BaseMessage))
        (newMsgs : List BaseMessage),
      pipeline (st.messages ++ [HumanMessage input]) = Except.ok newMsgs →
      (Conversation.chat st input pipeline).2
        = Except.ok (spec_transcript newMsgs, GraphJson.data [] [])) := by
  constructor
  · intro msgs
    rfl
  · intro st input pipeline newMsgs h
    unfold Conversation.chat
    rw [h]
    rfl

/-- C6 witness: the chat conjunct applied at a concrete state and the
concrete stub pipeline. -/
theorem c6_transcript_format_witness :
    (Conversation.chat ⟨[], ""⟩ "hi" pipelineEcho).2
      = Except.ok (spec_transcript [⟨"human", "hi"⟩, ⟨"ai", "hello"⟩], GraphJson.data [] []) :=
  c6_transcript_format.2 ⟨[], ""⟩ "hi" pipelineEcho [⟨"human", "hi"⟩, ⟨"ai", "hello"⟩] rfl

/-- Auxiliary: the empty registry is well-formed. -/
theorem wf_empty : MemoryStore.WF ⟨[], []⟩ := by
  constructor
  · intro p hp
    simp at hp
  · intro p hp
    simp at hp

/-- C7: `create_memory` is idempotent with identity stability: a second
call with the same session id returns the same reference and leaves the
registry unchanged, and a message appended through the first returned
reference is observed when reading through the reference the second call
returns. -/
theorem c7_get_or_create_identity_stable (sid : String) (s : MemoryStore)
    (hWF : MemoryStore.WF s) :
    create_memory sid (create_memory sid s).2 = create_memory sid s
    ∧ ∀ m : BaseMessage,
        readRef (appendRef (create_memory sid s).2 (create_memory sid s).1 m)
          (create_memory sid (create_memory sid s).2).1
        = readRef (create_memory sid s).2 (create_memory sid s).1 ++ [m] := by
  cases h : s.store.find? (fun p => p.1 == sid) with
  | some pr =>
    have hmem : pr ∈ s.store := List.mem_of_find?_eq_some h
    have hlt : pr.2 < s.heap.length := hWF.1 pr hmem
    constructor
    · simp only [create_memory, h]
    · intro m
      simp only [create_memory, h]
      unfold readRef appendRef
      exact list_getD_set_self _ _ _ _ hlt
  | none =>
    have hfind1 : ((s.store ++ [(sid, s.heap.length)]).find? (fun p => p.1 == sid))
        = some (sid, s.heap.length) := by
      rw [find?_append_of_none _ _ _ h]
      simp [List.find?]
    have hlen : s.heap.length < (s.heap ++ [[]]).length := by
      rw [List.length_append]
      simp
    constructor
    · simp only [create_memory, h, hfind1]
    · intro m
      simp only [create_memory, h, hfind1]
      unfold readRef appendRef
      exact list_getD_set_self _ _ _ _ hlen

/-- C7 witness: identity stability at the concrete session id `"a"` on
the empty registry. -/
theorem c7_get_or_create_identity_stable_witness :
    create_memory "a" (create_memory "a" emptyStore).2 = create_memory "a" emptyStore
    ∧ readRef (appendRef (create_memory "a" emptyStore).2 (create_memory "a" emptyStore).1 msgHi)
        (create_memory "a" (create_memory "a" emptyStore).2).1
      = readRef (create_memory "a" emptyStore).2 (create_memory "a" emptyStore).1 ++ [msgHi] :=
  ⟨(c7_get_or_create_identity_stable "a" emptyStore wf_empty).1,
   (c7_get_or_create_identity_stable "a" emptyStore wf_empty).2 msgHi⟩

/-- Auxiliary: `create_memory` preserves registry well-formedness. -/
theorem wf_create_memory (sid : String) (s : MemoryStore) (h : MemoryStore.WF s) :
    MemoryStore.WF (create_memory sid s).2 := by
  unfold create_memory
  split
  · exact h
  · constructor
    · intro p hp
      rcases List.mem_append.mp hp with hp1 | hp1
      · have h1 := h.1 p hp1
        show p.2 < (s.heap ++ [[]]).length
        rw [List.length_append]
        omega
      · have hp2 := List.mem_singleton.mp hp1
        subst hp2
        show s.heap.length < (s.heap ++ [[]]).length
        rw [List.length_append]
        simp
    · intro p hp q hq hne
      rcases List.mem_append.mp hp with hp1 | hp1 <;>
        rcases List.mem_append.mp hq with hq1 | hq1
      · exact h.2 p hp1 q hq1 hne
      · have hq2 := List.mem_singleton.mp hq1
        subst hq2
        have h1 := h.1 p hp1
        show p.2 ≠ s.heap.length
        omega
      · have hp2 := List.mem_singleton.mp hp1
        subst hp2
        have h1 := h.1 q hq1
        show s.heap.length ≠ q.2
        omega
      · have hp2 := List.mem_singleton.mp hp1
        have hq2 := List.mem_singleton.mp hq1
        subst hp2
        subst hq2
        exact absurd rfl hne

/-- Auxiliary: appending through a reference preserves registry
well-formedness (the key set and the heap length are unchanged). -/
theorem wf_appendRef (s : MemoryStore) (r : Nat) (m : BaseMessage)
    (h : MemoryStore.WF s) : MemoryStore.WF (appendRef s r m) := by
  constructor
  · intro p hp
    have h1 := h.1 p hp
    show p.2 < (s.heap.set r (s.heap.getD r [] ++ [m])).length
    rw [List.length_set]
    exact h1
  · exact h.2

/-- Auxiliary: on a well-formed registry, creating two distinct session
ids (in sequence) yields distinct history references. -/
theorem create_refs_distinct (s : MemoryStore) (sid1 sid2 : String)
    (hWF : MemoryStore.WF s) (hne : sid1 ≠ sid2) :
    (create_memory sid1 s).1 ≠ (create_memory sid2 (create_memory sid1 s).2).1 := by
  cases h1 : s.store.find? (fun p => p.1 == sid1) with
  | some pr1 =>
    have hm1 : pr1 ∈ s.store := List.mem_of_find?_eq_some h1
    have e1 : create_memory sid1 s = (pr1.2, s) := by simp only [create_memory, h1]
    rw [e1]
    show pr1.2 ≠ (create_memory sid2 s).1
    cases h2 : s.store.find? (fun p => p.1 == sid2) with
    | some pr2 =>
      have hm2 : pr2 ∈ s.store := List.mem_of_find?_eq_some h2
      have hk1 : pr1.1 = sid1 := by simpa using List.find?_some h1
      have hk2 : pr2.1 = sid2 := by simpa using List.find?_some h2
      have e2 : create_memory sid2 s = (pr2.2, s) := by simp only [create_memory, h2]
      rw [e2]
      show pr1.2 ≠ pr2.2
      refine hWF.2 pr1 hm1 pr2 hm2 ?_
      rw [hk1, hk2]
      exact hne
    | none =>
      have e2 : create_memory sid2 s
          = (s.heap.length, ⟨s.store ++ [(sid2, s.heap.length)], s.heap ++ [[]]⟩) := by
        simp only [create_memory, h2]
      rw [e2]
      show pr1.2 ≠ s.heap.length
      have h1l := hWF.1 pr1 hm1
      omega
  | none =>
    have e1 : create_memory sid1 s
        = (s.heap.length, ⟨s.store ++ [(sid1, s.heap.length)], s.heap ++ [[]]⟩) := by
      simp only [create_memory, h1]
    rw [e1]
    have hpa : ((sid1, s.heap.length).1 == sid2) = false := by
      simp only [beq_eq_false_iff_ne]
      exact hne
    cases h2 : s.store.find? (fun p => p.1 == sid2) with
    | some pr2 =>
      have hfind2 : ((s.store ++ [(sid1, s.heap.length)]).find? (fun p => p.1 == sid2))
          = some pr2 := by
        rw [find?_append_singleton_of_neg (fun p => p.1 == sid2) s.store
          (sid1, s.heap.length) hpa]
        exact h2
      show s.heap.length
        ≠ (create_memory sid2 (⟨s.store ++ [(sid1, s.heap.length)], s.heap ++ [[]]⟩ : MemoryStore)).1
      have e2 : create_memory sid2 (⟨s.store ++ [(sid1, s.heap.length)], s.heap ++ [[]]⟩ : MemoryStore)
          = (pr2.2, ⟨s.store ++ [(sid1, s.heap.length)], s.heap ++ [[]]⟩) := by
        simp only [create_memory, hfind2]
      rw [e2]
      show s.heap.length ≠ pr2.2
      have hm2 : pr2 ∈ s.store := List.mem_of_find?_eq_some h2
      have h2l := hWF.1 pr2 hm2
      omega
    | none =>
      have hfind2 : ((s.store ++ [(sid1, s.heap.length)]).find? (fun p => p.1 == sid2))
          = none := by
        rw [find?_append_singleton_of_neg (fun p => p.1 == sid2) s.store
          (sid1, s.heap.length) hpa]
        exact h2
      show s.heap.length
        ≠ (create_memory sid2 (⟨s.store ++ [(sid1, s.heap.length)], s.heap ++ [[]]⟩ : MemoryStore)).1
      have e2 : create_memory sid2 (⟨s.store ++ [(sid1, s.heap.length)], s.heap ++ [[]]⟩ : MemoryStore)
          = ((s.heap ++ [[]]).length,
            ⟨(s.store ++ [(sid1, s.heap.length)]) ++ [(sid2, (s.heap ++ [[]]).length)],
              (s.heap ++ [[]]) ++ [[]]⟩) := by
        simp only [create_memory, hfind2]
      rw [e2]
      show s.heap.length ≠ (s.heap ++ [[]]).length
      rw [List.length_append]
      simp

/-- C8: session isolation.  The empty registry is well-formed;
`create_memory` and appends preserve well-formedness (so every reachable
registry is well-formed); and on any well-formed registry two distinct
session ids are mapped to distinct history references, so appending a
message through one session's reference leaves the messages read through
the other session's reference unchanged. -/
theorem c8_session_isolation :
    MemoryStore.WF ⟨[], []⟩
    ∧ (∀ (sid : String) (s : MemoryStore), MemoryStore.WF s →
        MemoryStore.WF (create_memory sid s).2)
    ∧ (∀ (s : MemoryStore) (r : Nat) (m : BaseMessage), MemoryStore.WF s →
        MemoryStore.WF (appendRef s r m))
    ∧ (∀ (s : MemoryStore) (sid1 sid2 : String), MemoryStore.WF s → sid1 ≠ sid2 →
        (create_memory sid1 s).1 ≠ (create_memory sid2 (create_memory sid1 s).2).1
        ∧ ∀ m : BaseMessage,
          readRef (appendRef (create_memory sid2 (create_memory sid1 s).2).2
              (create_memory sid1 s).1 m)
            (create_memory sid2 (create_memory sid1 s).2).1
          = readRef (create_memory sid2 (create_memory sid1 s).2).2
            (create_memory sid2 (create_memory sid1 s).2).1) := by
  refine ⟨wf_empty, wf_create_memory, wf_appendRef, ?_⟩
  intro s sid1 sid2 hWF hne
  have hd := create_refs_distinct s sid1 sid2 hWF hne
  refine ⟨hd, ?_⟩
  intro m
  unfold readRef appendRef
  exact list_getD_set_ne _ _ _ _ _ hd

/-- C8 witness: isolation of the concrete sessions `"a"` and `"b"`
created on the empty registry. -/
theorem c8_session_isolation_witness :
    (create_memory "a" emptyStore).1
      ≠ (create_memory "b" (create_memory "a" emptyStore).2).1
    ∧ readRef (appendRef (create_memory "b" (create_memory "a" emptyStore).2).2
          (create_memory "a" emptyStore).1 msgHi)
        (create_memory "b" (create_memory "a" emptyStore).2).1
      = readRef (create_memory "b" (create_memory "a" emptyStore).2).2
        (create_memory "b" (create_memory "a" emptyStore).2).1 :=
  ⟨(c8_session_isolation.2.2.2 emptyStore "a" "b" wf_empty (by decide)).1,
   (c8_session_isolation.2.2.2 emptyStore "a" "b" wf_empty (by decide)).2 msgHi⟩

/-- C9: `load_run` returns a recorded run with the requested id when one
exists (the first such run in the log), and raises the
`Run <id> not found` KeyError when no recorded run has that id. -/
theorem c9_load_run_spec (t : GraphTracer) (rid : String) :
    ((∃ r ∈ t.runs, r.id = rid) →
      ∃ r, t.load_run rid = Except.ok r ∧ r ∈ t.runs ∧ r.id = rid)
    ∧ ((∀ r ∈ t.runs, r.id ≠ rid) →
      t.load_run rid = Except.error ("Run " ++ rid ++ " not found")) := by
  cases h : t.runs.find? (fun r => r.id == rid) with
  | some r =>
    have hm : r ∈ t.runs := List.mem_of_find?_eq_some h
    have hid : r.id = rid := by simpa using List.find?_some h
    constructor
    · intro _
      refine ⟨r, ?_, hm, hid⟩
      unfold GraphTracer.load_run
      rw [h]
    · intro hall
      exact absurd hid (hall r hm)
  | none =>
    have hnone := List.find?_eq_none.mp h
    constructor
    · rintro ⟨r, hr, hid⟩
      have : (r.id == rid) = true := by simp [hid]
      exact absurd this (hnone r hr)
    · intro _
      unfold GraphTracer.load_run
      rw [h]

/-- C9 witness: the NotFound branch at the concrete id `"missing"` on a
tracer that recorded only run `"a"`. -/
theorem c9_load_run_spec_witness :
    tracer1.load_run "missing" = Except.error "Run missing not found" :=
  (c9_load_run_spec tracer1 "missing").2 (by decide)

/-- Auxiliary: rewriting one node's attributes with a function that keeps
`label` and `type` does not change the projection `get_graph_data`
reads. -/
theorem map_proj_if (l : List (String × NodeAttrs)) (id : String)
    (f : NodeAttrs → NodeAttrs)
    (hf : ∀ a, (f a).label = a.label ∧ (f a).type = a.type) :
    (l.map (fun p => if p.1 == id then (p.1, f p.2) else p)).map nodeProj
      = l.map nodeProj := by
  induction l with
  | nil => rfl
  | cons p t ih =>
    simp only [List.map_cons]
    rw [ih]
    by_cases hp : (p.1 == id) = true
    · rw [if_pos hp]
      simp [nodeProj, (hf p.2).1, (hf p.2).2]
    · rw [if_neg hp]

/-- Auxiliary: `setNode` on an existing node with a `label`/`type`
preserving rewrite keeps the export projection of every node and the edge
list. -/
theorem setNode_proj_frame (g : DiGraph) (id : String) (f : NodeAttrs → NodeAttrs)
    (hf : ∀ a, (f a).label = a.label ∧ (f a).type = a.type)
    (h : g.hasNode id = true) :
    (g.setNode id f).nodes.map nodeProj = g.nodes.map nodeProj
    ∧ (g.setNode id f).edges = g.edges := by
  unfold DiGraph.setNode
  rw [if_pos h]
  exact ⟨map_proj_if g.nodes id f hf, rfl⟩

/-- Auxiliary: node-id membership is determined by the export
projection. -/
theorem any_key_eq (l l2 : List (String × NodeAttrs))
    (hmap : l2.map nodeProj = l.map nodeProj) (id : String) :
    l2.any (fun p => p.1 == id) = l.any (fun p => p.1 == id) := by
  induction l generalizing l2 with
  | nil =>
    cases l2 with
    | nil => rfl
    | cons q t2 => simp at hmap
  | cons p t ih =>
    cases l2 with
    | nil => simp at hmap
    | cons q t2 =>
      simp only [List.map_cons, List.cons.injEq] at hmap
      have h1 : q.1 = p.1 :=
        congrArg (fun x : String × Option String × Option String => x.1) hmap.1
      simp only [List.any_cons]
      rw [h1, ih t2 hmap.2]

/-- Auxiliary: `hasNode` is determined by the export projection. -/
theorem hasNode_eq (g g2 : DiGraph)
    (hmap : g2.nodes.map nodeProj = g.nodes.map nodeProj) (id : String) :
    g2.hasNode id = g.hasNode id :=
  any_key_eq g.nodes g2.nodes hmap id

/-- Auxiliary: one exported node record depends only on the projection. -/
theorem exportNodeEntry_congr (p q : String × NodeAttrs)
    (h : nodeProj p = nodeProj q) : exportNodeEntry p = exportNodeEntry q := by
  have h1 : p.1 = q.1 :=
    congrArg (fun x : String × Option String × Option String => x.1) h
  have h2 : p.2.label = q.2.label :=
    congrArg (fun x : String × Option String × Option String => x.2.1) h
  have h3 : p.2.type = q.2.type :=
    congrArg (fun x : String × Option String × Option String => x.2.2) h
  unfold exportNodeEntry
  rw [h1, h2, h3]

/-- Auxiliary: the exported node list depends only on the projections. -/
theorem mapExportNodes_congr (l l2 : List (String × NodeAttrs))
    (hmap : l2.map nodeProj = l.map nodeProj) :
    mapExportNodes l2 = mapExportNodes l := by
  induction l generalizing l2 with
  | nil =>
    cases l2 with
    | nil => rfl
    | cons q t2 => simp at hmap
  | cons p t ih =>
    cases l2 with
    | nil => simp at hmap
    | cons q t2 =>
      simp only [List.map_cons, List.cons.injEq] at hmap
      unfold mapExportNodes
      rw [exportNodeEntry_congr q p hmap.1, ih t2 hmap.2]

/-- Auxiliary: `get_graph_data` depends only on the node projections and
the edge list. -/
theorem get_graph_data_eq (t t2 : GraphTracer)
    (hn : t2.graph.nodes.map nodeProj = t.graph.nodes.map nodeProj)
    (he : t2.graph.edges = t.graph.edges) :
    t2.get_graph_data = t.get_graph_data := by
  unfold GraphTracer.get_graph_data
  rw [mapExportNodes_congr t.graph.nodes t2.graph.nodes hn, he]

/-- Auxiliary: `on_run_update` on an already-created run id succeeds and
leaves every node's export projection and the edge list unchanged. -/
theorem on_run_update_frame (t : GraphTracer) (r : Run)
    (h : t.graph.hasNode r.id = true) :
    ∃ t2, t.on_run_update r = Except.ok t2
      ∧ t2.graph.nodes.map nodeProj = t.graph.nodes.map nodeProj
      ∧ t2.graph.edges = t.graph.edges := by
  cases hs : r.status with
  | none =>
    have heq : t.on_run_update r = Except.ok t := by
      simp only [GraphTracer.on_run_update, hs]
    exact ⟨t, heq, rfl, rfl⟩
  | some st =>
    have heq : t.on_run_update r = Except.ok
        { t with graph := t.graph.setNode r.id (fun a => { a with status := some st }) } := by
      simp only [GraphTracer.on_run_update, hs]
      rw [if_pos h]
    refine ⟨_, heq, ?_, ?_⟩
    · exact (setNode_proj_frame t.graph r.id
        (fun a => { a with status := some st }) (fun a => ⟨rfl, rfl⟩) h).1
    · exact (setNode_proj_frame t.graph r.id
        (fun a => { a with status := some st }) (fun a => ⟨rfl, rfl⟩) h).2

/-- Auxiliary: `on_run_end` on an already-created run id succeeds and
leaves every node's export projection and the edge list unchanged. -/
theorem on_run_end_frame (t : GraphTracer) (r : Run)
    (h : t.graph.hasNode r.id = true) :
    ∃ t2, t.on_run_end r = Except.ok t2
      ∧ t2.graph.nodes.map nodeProj = t.graph.nodes.map nodeProj
      ∧ t2.graph.edges = t.graph.edges := by
  cases hs : r.status with
  | some st =>
    have heq : t.on_run_end r = Except.ok
        ⟨t.graph.setNode r.id
          (fun a => { a with status := some st, end_time := some r.end_time }), t.runs⟩ := by
      simp only [GraphTracer.on_run_end, hs]
      rw [if_pos h]
    refine ⟨_, heq, ?_, ?_⟩
    · exact (setNode_proj_frame t.graph r.id
        (fun a => { a with status := some st, end_time := some r.end_time })
        (fun a => ⟨rfl, rfl⟩) h).1
    · exact (setNode_proj_frame t.graph r.id
        (fun a => { a with status := some st, end_time := some r.end_time })
        (fun a => ⟨rfl, rfl⟩) h).2
  | none =>
    have heq : t.on_run_end r = Except.ok
        ⟨t.graph.setNode r.id (fun a => { a with end_time := some r.end_time }), t.runs⟩ := by
      simp only [GraphTracer.on_run_end, hs]
      rw [if_pos h]
    refine ⟨_, heq, ?_, ?_⟩
    · exact (setNode_proj_frame t.graph r.id
        (fun a => { a with end_time := some r.end_time }) (fun a => ⟨rfl, rfl⟩) h).1
    · exact (setNode_proj_frame t.graph r.id
        (fun a => { a with end_time := some r.end_time }) (fun a => ⟨rfl, rfl⟩) h).2

/-- Auxiliary: any single update/end event on an already-created run id
succeeds and preserves the export projection. -/
theorem applyUEvent_frame (t : GraphTracer) (e : UEvent)
    (h : t.graph.hasNode e.runId = true) :
    ∃ t2, t.applyUEvent e = Except.ok t2
      ∧ t2.graph.nodes.map nodeProj = t.graph.nodes.map nodeProj
      ∧ t2.graph.edges = t.graph.edges := by
  cases e with
  | upd r => exact on_run_update_frame t r h
  | fin r => exact on_run_end_frame t r h

/-- C10: the export is fully determined by the creates alone — every
exported node carries only `{id, label, type}` (see `ExportNode`) and
every exported edge only `{from, to}` (see `ExportEdge`), and any
sequence of `on_run_update` / `on_run_end` events whose run ids were all
already created succeeds and leaves `get_graph_data` unchanged. -/
theorem c10_export_frame (t : GraphTracer) (evs : List UEvent)
    (h : ∀ e ∈ evs, t.graph.hasNode e.runId = true) :
    exceptIsOk (t.applyUEvents evs) = true
    ∧ exportOfE (t.applyUEvents evs) = t.get_graph_data := by
  induction evs generalizing t with
  | nil => exact ⟨rfl, rfl⟩
  | cons e es ih =>
    obtain ⟨t2, hok, hn, hedge⟩ := applyUEvent_frame t e (h e (List.mem_cons_self e es))
    have hstep : t.applyUEvents (e :: es) = t2.applyUEvents es := by
      show (match t.applyUEvent e with
        | Except.error ex => Except.error ex
        | Except.ok tx => tx.applyUEvents es) = t2.applyUEvents es
      rw [hok]
    have hes : ∀ e2 ∈ es, t2.graph.hasNode e2.runId = true := by
      intro e2 he2
      rw [hasNode_eq t.graph t2.graph hn e2.runId]
      exact h e2 (List.mem_cons_of_mem e he2)
    refine ⟨?_, ?_⟩
    · rw [hstep]
      exact (ih t2 hes).1
    · rw [hstep, (ih t2 hes).2]
      exact get_graph_data_eq t t2 hn hedge

/-- C10 witness: a concrete update and end event on the created run `"a"`
leave the concrete tracer's export unchanged. -/
theorem c10_export_frame_witness :
    exceptIsOk (tracer1.applyUEvents [UEvent.upd runAfin, UEvent.fin runAfin]) = true
    ∧ exportOfE (tracer1.applyUEvents [UEvent.upd runAfin, UEvent.fin runAfin])
        = tracer1.get_graph_data :=
  c10_export_frame tracer1 [UEvent.upd runAfin, UEvent.fin runAfin] (by decide)
